import Mathlib

/-!
Verification development for the rewards-tree watchtower of the smartnode
repository (package `watchtower`, file containing `submitRewardsTree`).

The Go source is shallowly embedded as pure Lean functions.  External
collaborators (chain clients, wallet, storage service, the tree builder)
are modelled as oracles carried in an environment record: each fallible
external call is a field of type `Except Unit α` giving the value the call
would return, or an error.  The observable side effects of one invocation
of `run()` (header fetches, file writes, uploads, the submission
transaction, log warnings) are collected in an event list, in the order the
source performs them.  Machine integers: Go `time.Duration` arithmetic is
`Int` with truncating division (`Int.tdiv`), Go `uint64` values are `Nat`,
and the one place the source casts a possibly-negative `int64` to `uint64`
is modelled with an explicit `% 2^64`.
-/

deriving instance DecidableEq for Except

namespace Watchtower

/-- Beacon chain configuration, from `beacon.Eth2Config`. -/
structure Eth2ConfigM where
  genesisTime : Nat
  secondsPerSlot : Nat
  slotsPerEpoch : Nat
  secondsPerEpoch : Nat
deriving DecidableEq

/-- Beacon head state: only the finalized epoch is consumed by this core. -/
structure BeaconHeadM where
  finalizedEpoch : Nat
deriving DecidableEq

/-- A beacon block, as consumed here: its execution-layer block number
(0 when the block carries none, i.e. pre-merge). -/
structure BeaconBlockM where
  executionBlockNumber : Nat
deriving DecidableEq

/-- Oracles for the beacon client calls made by `getSnapshotConsensusBlock`:
`GetEth2Config`, `GetBeaconHead`, and `GetBeaconBlock` by slot (the latter
returns whether a block exists at the slot, and the block if so). -/
structure BeaconEnv where
  eth2ConfigR : Except Unit Eth2ConfigM
  beaconHeadR : Except Unit BeaconHeadM
  getBeaconBlock : Nat → Except Unit (Option BeaconBlockM)

/-- Per-network rewards entry of the rewards file (`NetworkRewards`). -/
structure NetworkRewardsM where
  collateralRpl : Int
  oracleDaoRpl : Int
  smoothingPoolEth : Int
deriving DecidableEq

/-- The rewards artifact (`rprewards.RewardsFile`), reduced to the fields this
core consumes: the Merkle root (abstract token), the protocol-DAO RPL total,
the per-network rewards map (finite, as an association list), and the
minipool performance payload (abstract token). -/
structure RewardsFileM where
  merkleRoot : Nat
  protocolDaoRpl : Int
  networkRewards : List (Nat × NetworkRewardsM)
  minipoolPerformance : Nat
deriving DecidableEq

/-- The on-chain submission payload (`rewards.RewardSubmission`). -/
structure RewardSubmissionM where
  rewardIndex : Nat
  executionBlock : Nat
  consensusBlock : Nat
  merkleRoot : Nat
  merkleTreeCID : Nat
  intervalsPassed : Int
  treasuryRpl : Int
  nodeRpl : List Int
  trustedNodeRpl : List Int
  nodeEth : List Int
deriving DecidableEq

/-- Observable side effects of one invocation, in program order. -/
inductive Event
  | headerByNumber (n : Nat)
  | headerForTime (t : Int)
  | genStarted
  | warnMultipleIntervals
  | wroteMinipoolPerfFile (bytes : Nat)
  | uploadedMinipoolPerf (bytes : Nat)
  | wroteRewardsFile (bytes : Nat)
  | uploadedRewardsTree (bytes : Nat)
  | submittedTx (s : RewardSubmissionM)
deriving DecidableEq

/-- Failure conditions of `getSnapshotConsensusBlock`.  `notFinalized` is the
"Snapshot end time ... waiting until epoch ... is finalized" condition;
`walkUnderflow` models walking below slot 0 (the Go `uint64` would wrap). -/
inductive SnapshotError
  | configErr
  | headErr
  | notFinalized (requiredEpoch finalizedEpoch : Nat)
  | blockQueryErr (slot : Nat)
  | walkUnderflow
deriving DecidableEq

/-- Ceiling division on naturals: `math.Ceil(a / b)` for non-negative exact
integer operands. -/
def ceilDivNat (a b : Nat) : Nat := (a + b - 1) / b

/-- Backward walk of `getSnapshotConsensusBlock`: query the block at the slot;
if it is missing, decrement the slot and retry; return the first slot that has
a proposed block, together with that block.  Recursion is on the slot number,
so the walk that the Go `for` loop would continue past slot 0 (wrapping its
`uint64`) is modelled as the `walkUnderflow` error. -/
def walkSlots (getBlock : Nat → Except Unit (Option BeaconBlockM)) :
    Nat → Except SnapshotError (Nat × BeaconBlockM)
  | 0 =>
    match getBlock 0 with
    | .error _ => .error (.blockQueryErr 0)
    | .ok (some b) => .ok (0, b)
    | .ok none => .error .walkUnderflow
  | s + 1 =>
    match getBlock (s + 1) with
    | .error _ => .error (.blockQueryErr (s + 1))
    | .ok (some b) => .ok (s + 1, b)
    | .ok none => walkSlots getBlock s

/-- Slot derived from the end time before epoch rounding:
`uint64(math.Ceil(totalTimespan.Seconds() / float64(SecondsPerSlot)))`. -/
def rawTargetSlotOf (cfg : Eth2ConfigM) (endTime : Int) : Nat :=
  ceilDivNat (endTime - (cfg.genesisTime : Int)).toNat cfg.secondsPerSlot

/-- Epoch containing the raw target slot. -/
def targetSlotEpochOf (cfg : Eth2ConfigM) (endTime : Int) : Nat :=
  rawTargetSlotOf cfg endTime / cfg.slotsPerEpoch

/-- The target slot after rounding up to the last slot of its epoch. -/
def snapshotTargetSlotOf (cfg : Eth2ConfigM) (endTime : Int) : Nat :=
  targetSlotEpochOf cfg endTime * cfg.slotsPerEpoch + (cfg.slotsPerEpoch - 1)

/-- The epoch required to be finalized: one beyond the target epoch, to admit
late attestations. -/
def requiredEpochOf (cfg : Eth2ConfigM) (endTime : Int) : Nat :=
  targetSlotEpochOf cfg endTime + 1

/-- Transcription of `getSnapshotConsensusBlock`: derive the target slot from
the end time, round it up to the last slot of its epoch, require the epoch
after the target epoch to be finalized, then walk backward to the first slot
with a proposed block.  Returns (slot, execution block number, reference
timestamp = genesis + requiredEpoch * secondsPerEpoch). -/
def getSnapshotConsensusBlock (benv : BeaconEnv) (endTime : Int) :
    Except SnapshotError (Nat × Nat × Int) :=
  match benv.eth2ConfigR with
  | .error _ => .error .configErr
  | .ok cfg =>
    match benv.beaconHeadR with
    | .error _ => .error .headErr
    | .ok head =>
      let targetSlot2 := snapshotTargetSlotOf cfg endTime
      let requiredEpoch := requiredEpochOf cfg endTime
      if head.finalizedEpoch < requiredEpoch then
        .error (.notFinalized requiredEpoch head.finalizedEpoch)
      else
        match walkSlots benv.getBeaconBlock targetSlot2 with
        | .error e => .error e
        | .ok (slot, b) =>
          .ok (slot, b.executionBlockNumber,
            (cfg.genesisTime : Int) + ((requiredEpoch * cfg.secondsPerEpoch : Nat) : Int))

/-- Association-list lookup for the per-network rewards map
(`rewardsFile.NetworkRewards[network]`). -/
def lookupNet (k : Nat) : List (Nat × NetworkRewardsM) → Option NetworkRewardsM
  | [] => none
  | (k', v) :: rest => if k = k' then some v else lookupNet k rest

/-- The loop of `submitRewardsSnapshot` that builds the three per-network
arrays: iterate network ids upward from `k`, stopping at the first id absent
from the map.  The fuel argument is `m.length + 1` at the top-level call; it
never runs out, because the first absent id is at most `m.length`
(the ids below it are distinct keys of `m`), so this is extensionally the
unbounded Go loop. -/
def buildNetworkArraysGo (m : List (Nat × NetworkRewardsM)) :
    Nat → Nat → List Int × List Int × List Int
  | 0, _ => ([], [], [])
  | fuel + 1, k =>
    match lookupNet k m with
    | none => ([], [], [])
    | some nr =>
      let rest := buildNetworkArraysGo m fuel (k + 1)
      (nr.collateralRpl :: rest.1, nr.oracleDaoRpl :: rest.2.1,
        nr.smoothingPoolEth :: rest.2.2)

/-- The three dense per-network arrays (collateral RPL, oracle-DAO RPL,
smoothing-pool ETH), built from network id 0. -/
def buildNetworkArrays (m : List (Nat × NetworkRewardsM)) :
    List Int × List Int × List Int :=
  buildNetworkArraysGo m (m.length + 1) 0

/-- The `rewards.RewardSubmission` value assembled by `submitRewardsSnapshot`. -/
def mkSubmission (index conBlock exBlock : Nat) (rf : RewardsFileM)
    (cid : Nat) (ip : Int) : RewardSubmissionM :=
  let arrs := buildNetworkArrays rf.networkRewards
  { rewardIndex := index
    executionBlock := exBlock
    consensusBlock := conBlock
    merkleRoot := rf.merkleRoot
    merkleTreeCID := cid
    intervalsPassed := ip
    treasuryRpl := rf.protocolDaoRpl
    nodeRpl := arrs.1
    trustedNodeRpl := arrs.2.1
    nodeEth := arrs.2.2 }

/-- Oracles for the fallible steps of `submitRewardsSnapshot`: Merkle-root hex
decode, transactor retrieval, gas estimation, the gas-cost check against the
configured maximum fee (`api.PrintAndCheckGasInfo`), transaction submission,
and waiting for the transaction to be mined. -/
structure SubmitEnv where
  rootDecodeOk : Bool
  transactorOk : Bool
  gasEstimateOk : Bool
  gasCheckPass : Bool
  submitOk : Bool
  waitOk : Bool
deriving DecidableEq

/-- Transcription of `submitRewardsSnapshot`: decode the root, build the
per-network arrays, get the transactor, assemble the submission, estimate gas;
if the gas check against the configured max fee fails, return nil without
submitting; otherwise submit and wait.  The event records the transaction
actually sent. -/
def submitRewardsSnapshotM (senv : SubmitEnv) (index conBlock exBlock : Nat)
    (rf : RewardsFileM) (cid : Nat) (ip : Int) :
    Except Unit Unit × List Event :=
  if !senv.rootDecodeOk then (.error (), [])
  else if !senv.transactorOk then (.error (), [])
  else
    let submission := mkSubmission index conBlock exBlock rf cid ip
    if !senv.gasEstimateOk then (.error (), [])
    else if !senv.gasCheckPass then (.ok (), [])
    else if !senv.submitOk then (.error (), [])
    else if !senv.waitOk then (.error (), [.submittedTx submission])
    else (.ok (), [.submittedTx submission])

/-- Transcription of `uploadFileToWeb3Storage`, reduced to the outcomes the
watchtower observes: a missing API token is a configuration error; otherwise
the upload oracle yields the content identifier or fails. -/
def uploadFileToWeb3StorageM (tokenSet : Bool) (putR : Except Unit Nat) :
    Except Unit Nat :=
  if !tokenSet then .error () else putR

/-- Errors `run()` can return to its caller (the background task's failures do
not surface here; they go to `handleError`). -/
inductive RunError
  | ethSync
  | beaconSync
  | nodeAccount
  | trustedCheck
  | startTimeRead
  | intervalTimeRead
  | headerRead
  | snapshot (e : SnapshotError)
  | elResolve
  | rewardIndexRead
  | hasSubmittedCheck
  | fileRead
  | deserialize
  | upload
  | submit
deriving DecidableEq

/-- Environment of one `run()` invocation: every external read and fallible
call, in program order.  `isRunningAtCheck` is the value of the shared
`isRunning` flag that the lock-guarded check observes. -/
structure RunEnv where
  ethSynced : Bool
  beaconSynced : Bool
  nodeAccountOk : Bool
  nodeTrustedR : Except Unit Bool
  modeGenerate : Bool
  startTimeR : Except Unit Int
  intervalTimeR : Except Unit Int
  latestBlockTimeR : Except Unit Int
  beaconEnv : BeaconEnv
  elHeaderForTimeR : Except Unit Nat
  elHeaderByNumberOk : Bool
  rewardIndexR : Except Unit Nat
  isRunningAtCheck : Bool
  rewardsFileExists : Bool
  hasSubmittedR : Except Unit Bool
  readFileR : Except Unit Nat
  parseStoredR : Except Unit RewardsFileM
  web3TokenSet : Bool
  putResumeR : Except Unit Nat
  archiveUrlSet : Bool
  dialArchiveOk : Bool
  newRocketPoolOk : Bool
  genResult : Except Unit RewardsFileM
  marshalPerfR : Except Unit Nat
  writePerfOk : Bool
  putPerfR : Except Unit Nat
  marshalWrapperR : Except Unit Nat
  writeTreeOk : Bool
  putTreeR : Except Unit Nat
  submitEnv : SubmitEnv

/-- Result of the background generation task: the final value of the
`isRunning` flag, the events the task performed, and whether it failed
(funnelled through `handleError`). -/
structure TaskResult where
  isRunning : Bool
  events : List Event
  failed : Bool
deriving DecidableEq

/-- Transcription of `handleError`: log the error and clear `isRunning` under
the lock. -/
def handleErrorM (events : List Event) : TaskResult :=
  { isRunning := false, events := events, failed := true }

/-- Events the background task logs before any work: the generation start,
preceded by a warning when more than one whole interval has passed
(`uint64(intervalsPassed) > 1` in the source, hence the `% 2^64` for the
`int64` to `uint64` cast). -/
def startEvents (ip : Int) : List Event :=
  if 1 < ((ip % (2 ^ 64 : Int)).toNat) then
    [.genStarted, .warnMultipleIntervals]
  else [.genStarted]

/-- Tail of the background task from the serialization of the rewards tree
onward: marshal the tree, write it to disk, and — for an Oracle DAO node —
upload it and submit the snapshot to the contracts. -/
def bodyTail (env : RunEnv) (nodeTrusted : Bool)
    (currentIndex snapshotBeaconBlock elBlockIndex : Nat) (ip : Int)
    (rf : RewardsFileM) (ev : List Event) : TaskResult :=
  match env.marshalWrapperR with
  | .error _ => handleErrorM ev
  | .ok wrapperBytes =>
    if !env.writeTreeOk then handleErrorM ev
    else
      let ev2 := ev ++ [.wroteRewardsFile wrapperBytes]
      if nodeTrusted then
        match uploadFileToWeb3StorageM env.web3TokenSet env.putTreeR with
        | .error _ => handleErrorM ev2
        | .ok cid =>
          let ev3 := ev2 ++ [.uploadedRewardsTree wrapperBytes]
          let sub := submitRewardsSnapshotM env.submitEnv currentIndex
            snapshotBeaconBlock elBlockIndex rf cid ip
          match sub.1 with
          | .error _ => handleErrorM (ev3 ++ sub.2)
          | .ok _ => { isRunning := false, events := ev3 ++ sub.2, failed := false }
      else { isRunning := false, events := ev2, failed := false }

/-- Transcription of the background goroutine of `run()`: set `isRunning`
under the lock, warn when more than one interval passed (`uint64` cast of the
interval count), optionally switch to the archive execution client, generate
the rewards file, write and (if trusted) upload the minipool performance file,
then hand off to `bodyTail`.  Every failure goes through `handleErrorM`. -/
def goroutineBody (env : RunEnv) (nodeTrusted : Bool)
    (currentIndex snapshotBeaconBlock elBlockIndex : Nat) (ip : Int) :
    TaskResult :=
  let ev0 : List Event := startEvents ip
  if env.archiveUrlSet && !env.dialArchiveOk then handleErrorM ev0
  else if env.archiveUrlSet && !env.newRocketPoolOk then handleErrorM ev0
  else
    match env.genResult with
    | .error _ => handleErrorM ev0
    | .ok rewardsFile =>
      match env.marshalPerfR with
      | .error _ => handleErrorM ev0
      | .ok perfBytes =>
        if !env.writePerfOk then handleErrorM ev0
        else
          let ev2 := ev0 ++ [.wroteMinipoolPerfFile perfBytes]
          if nodeTrusted then
            match uploadFileToWeb3StorageM env.web3TokenSet env.putPerfR with
            | .error _ => handleErrorM ev2
            | .ok _ =>
              bodyTail env nodeTrusted currentIndex snapshotBeaconBlock
                elBlockIndex ip rewardsFile
                (ev2 ++ [.uploadedMinipoolPerf perfBytes])
          else
            bodyTail env nodeTrusted currentIndex snapshotBeaconBlock
              elBlockIndex ip rewardsFile ev2

/-- Count of whole intervals since the interval start:
`timeSinceStart / intervalTime` on Go durations, i.e. truncating (toward-zero)
integer division. -/
def intervalsPassedOf (startTime intervalTime latestBlockTime : Int) : Int :=
  Int.tdiv (latestBlockTime - startTime) intervalTime

/-- The end time handed to snapshot selection:
`startTime.Add(intervalTime * intervalsPassed)`. -/
def endTimeOf (startTime intervalTime latestBlockTime : Int) : Int :=
  startTime + intervalTime * intervalsPassedOf startTime intervalTime latestBlockTime

/-- Outcome of one `run()` invocation: its return value, the observable events
(including those of the background task, run to completion), and the final
value of the `isRunning` flag. -/
structure RunOutcome where
  result : Except RunError Unit
  events : List Event
  isRunningAfter : Bool
deriving DecidableEq

/-- The execution-reference event of `run()`: fetch the execution header by
the consensus block's execution block number when it carries one, otherwise
resolve the header by timestamp search near the reference timestamp
(`GetELBlockHeaderForTime`). -/
def elEventsOf (elBlockNumber : Nat) (nextIntervalEpochTime : Int) : List Event :=
  if elBlockNumber = 0 then [.headerForTime nextIntervalEpochTime]
  else [.headerByNumber elBlockNumber]

/-- Result of the execution-reference resolution: the execution block number
the snapshot header reports.  The by-number fetch returns the header of the
requested block, so its number is `elBlockNumber` itself; the by-timestamp
resolver's result comes from its oracle. -/
def elResolveOf (env : RunEnv) (elBlockNumber : Nat) : Except Unit Nat :=
  if elBlockNumber = 0 then env.elHeaderForTimeR
  else if env.elHeaderByNumberOk then .ok elBlockNumber else .error ()

/-- Continuation of `run()` after the execution reference is resolved: read
the current interval index, no-op when a generation is already running, take
the resume path when the rewards file for the interval already exists
(terminal for a non-trusted node; for a trusted node skip when already
submitted, else re-upload the stored bytes and resubmit with the stored
file's Merkle root), and otherwise spawn the background generation task.
Events here do not include the execution-reference event, which `runModel`
prepends. -/
def afterElResolution (env : RunEnv) (nodeTrusted : Bool) (ip : Int)
    (snapshotBeaconBlock elBlockIndex : Nat) : RunOutcome :=
  match env.rewardIndexR with
  | .error _ => ⟨.error .rewardIndexRead, [], env.isRunningAtCheck⟩
  | .ok currentIndex =>
    if env.isRunningAtCheck then ⟨.ok (), [], true⟩
    else if env.rewardsFileExists then
      if !nodeTrusted then ⟨.ok (), [], false⟩
      else
        match env.hasSubmittedR with
        | .error _ => ⟨.error .hasSubmittedCheck, [], false⟩
        | .ok true => ⟨.ok (), [], false⟩
        | .ok false =>
          match env.readFileR with
          | .error _ => ⟨.error .fileRead, [], false⟩
          | .ok wrapperBytes =>
            match env.parseStoredR with
            | .error _ => ⟨.error .deserialize, [], false⟩
            | .ok proofWrapper =>
              match uploadFileToWeb3StorageM env.web3TokenSet env.putResumeR with
              | .error _ => ⟨.error .upload, [], false⟩
              | .ok cid =>
                let ev : List Event := [.uploadedRewardsTree wrapperBytes]
                let sub := submitRewardsSnapshotM env.submitEnv currentIndex
                  snapshotBeaconBlock elBlockIndex proofWrapper cid ip
                match sub.1 with
                | .error _ => ⟨.error .submit, ev ++ sub.2, false⟩
                | .ok _ => ⟨.ok (), ev ++ sub.2, false⟩
    else
      let task := goroutineBody env nodeTrusted currentIndex
        snapshotBeaconBlock elBlockIndex ip
      ⟨.ok (), task.events, task.isRunning⟩

/-- Tail of `run()` from snapshot selection onward: select the snapshot
consensus block for the end time, resolve the execution reference, and
continue with `afterElResolution`. -/
def runFromSnapshot (env : RunEnv) (nodeTrusted : Bool) (ip endTime : Int) :
    RunOutcome :=
  match getSnapshotConsensusBlock env.beaconEnv endTime with
  | .error e => ⟨.error (.snapshot e), [], env.isRunningAtCheck⟩
  | .ok (snapshotBeaconBlock, elBlockNumber, nextIntervalEpochTime) =>
    match elResolveOf env elBlockNumber with
    | .error _ =>
      ⟨.error .elResolve, elEventsOf elBlockNumber nextIntervalEpochTime,
        env.isRunningAtCheck⟩
    | .ok elBlockIndex =>
      let after := afterElResolution env nodeTrusted ip snapshotBeaconBlock
        elBlockIndex
      ⟨after.result,
        elEventsOf elBlockNumber nextIntervalEpochTime ++ after.events,
        after.isRunningAfter⟩

/-- Transcription of `run()`: wait for clients, check trusted status and the
rewards mode, compute how many whole intervals have passed (no-op when zero),
select the snapshot consensus block, resolve the execution reference (by
number when the consensus block carries one, by timestamp otherwise), read
the current interval index, return as a no-op when a generation is already
running, take the resume path when the rewards file already exists, and
otherwise spawn the background generation task. -/
def runModel (env : RunEnv) : RunOutcome :=
  if !env.ethSynced then ⟨.error .ethSync, [], env.isRunningAtCheck⟩
  else if !env.beaconSynced then ⟨.error .beaconSync, [], env.isRunningAtCheck⟩
  else if !env.nodeAccountOk then ⟨.error .nodeAccount, [], env.isRunningAtCheck⟩
  else
    match env.nodeTrustedR with
    | .error _ => ⟨.error .trustedCheck, [], env.isRunningAtCheck⟩
    | .ok nodeTrusted =>
      if !nodeTrusted && !env.modeGenerate then ⟨.ok (), [], env.isRunningAtCheck⟩
      else
        match env.startTimeR with
        | .error _ => ⟨.error .startTimeRead, [], env.isRunningAtCheck⟩
        | .ok startTime =>
          match env.intervalTimeR with
          | .error _ => ⟨.error .intervalTimeRead, [], env.isRunningAtCheck⟩
          | .ok intervalTime =>
            match env.latestBlockTimeR with
            | .error _ => ⟨.error .headerRead, [], env.isRunningAtCheck⟩
            | .ok latestBlockTime =>
              let intervalsPassed :=
                intervalsPassedOf startTime intervalTime latestBlockTime
              let endTime := endTimeOf startTime intervalTime latestBlockTime
              if intervalsPassed = 0 then ⟨.ok (), [], env.isRunningAtCheck⟩
              else runFromSnapshot env nodeTrusted intervalsPassed endTime

/-- Phases of one `run()` invocation with respect to the `isRunning` guard,
at the granularity of the lock's critical sections.  `atCheck` is about to
execute the lock-guarded read of `isRunning` (source lines 171-177);
`atSet` has passed the check and spawned the background task, which is about
to execute the lock-guarded `isRunning = true` (lines 234-236); `generating`
is inside the expensive generation path; `finishing` is about to execute the
lock-guarded clear (lines 341-343, or `handleError`); `doneNoop` returned
immediately after observing `isRunning = true`; `doneStarted` completed a
generation. -/
inductive Phase
  | atCheck
  | atSet
  | generating
  | finishing
  | doneNoop
  | doneStarted
deriving DecidableEq

/-- Shared state of the interleaving model: the `isRunning` flag and the
phase of each invocation. -/
structure TState where
  isRunning : Bool
  threads : List Phase
deriving DecidableEq

/-- One atomic step of invocation `i`.  Each step is one critical section of
the source: the check holds the lock for the read (and returns a no-op when
the flag is set), the set holds it for the write of `true`, the clear holds
it for the write of `false`.  The check and the set are separate critical
sections, exactly as in the source. -/
def stepThread (s : TState) (i : Nat) : TState :=
  match s.threads[i]? with
  | some .atCheck =>
    if s.isRunning then { s with threads := s.threads.set i .doneNoop }
    else { s with threads := s.threads.set i .atSet }
  | some .atSet => { isRunning := true, threads := s.threads.set i .generating }
  | some .generating => { s with threads := s.threads.set i .finishing }
  | some .finishing => { isRunning := false, threads := s.threads.set i .doneStarted }
  | _ => s

/-- Run a schedule: execute the listed invocations' next atomic steps in
order.  Any interleaving of the critical sections is some schedule. -/
def execSched (s : TState) : List Nat → TState
  | [] => s
  | i :: rest => execSched (stepThread s i) rest

/-- Modelled from the spec: `intervalsPassed = floor((now - start) / duration)`
as the specification states it — mathematical floor division — for comparison
with the source's truncating duration division. -/
def specIntervalsPassed (startTime intervalTime latestBlockTime : Int) : Int :=
  Int.fdiv (latestBlockTime - startTime) intervalTime

/-- Event classifiers used by the ordering and path theorems. -/
def isWroteRewards : Event → Bool
  | .wroteRewardsFile _ => true
  | _ => false

/-- True exactly on the minipool-performance local write event. -/
def isWrotePerf : Event → Bool
  | .wroteMinipoolPerfFile _ => true
  | _ => false

/-- True exactly on the minipool-performance upload event. -/
def isUploadedPerf : Event → Bool
  | .uploadedMinipoolPerf _ => true
  | _ => false

/-- True exactly on the execution-header fetch events (either path). -/
def isHeaderEvent : Event → Bool
  | .headerByNumber _ => true
  | .headerForTime _ => true
  | _ => false

/-- True exactly on upload events (either file). -/
def isUploadEvent : Event → Bool
  | .uploadedMinipoolPerf _ => true
  | .uploadedRewardsTree _ => true
  | _ => false

/-- True exactly on the submission-transaction event. -/
def isSubmitEvent : Event → Bool
  | .submittedTx _ => true
  | _ => false

/-- True on the events the background task can append after its start events:
file writes, uploads, and the submission transaction. -/
def isGoroutineTailEvent : Event → Bool
  | .wroteMinipoolPerfFile _ => true
  | .uploadedMinipoolPerf _ => true
  | .wroteRewardsFile _ => true
  | .uploadedRewardsTree _ => true
  | .submittedTx _ => true
  | _ => false

/-- Concrete rewards file used by witnesses: three dense networks. -/
def rfBase : RewardsFileM :=
  { merkleRoot := 900
    protocolDaoRpl := 7
    networkRewards := [(0, ⟨1, 2, 3⟩), (1, ⟨4, 5, 6⟩), (2, ⟨7, 8, 9⟩)]
    minipoolPerformance := 55 }

/-- Concrete submission environment used by witnesses: everything succeeds. -/
def submitEnvBase : SubmitEnv :=
  { rootDecodeOk := true, transactorOk := true, gasEstimateOk := true
    gasCheckPass := true, submitOk := true, waitOk := true }

/-- Concrete beacon environment used by witnesses: genesis 0, 12-second
slots, 32-slot epochs, finality far ahead, every slot proposed with
execution block 500. -/
def beaconEnvBase : BeaconEnv :=
  { eth2ConfigR := .ok
      { genesisTime := 0, secondsPerSlot := 12
        slotsPerEpoch := 32, secondsPerEpoch := 384 }
    beaconHeadR := .ok { finalizedEpoch := 1000 }
    getBeaconBlock := fun _ => .ok (some { executionBlockNumber := 500 }) }

/-- Concrete run environment used by witnesses: a trusted node, one whole
interval passed, no file present, every external call succeeding. -/
def envBase : RunEnv :=
  { ethSynced := true, beaconSynced := true, nodeAccountOk := true
    nodeTrustedR := .ok true, modeGenerate := false
    startTimeR := .ok 0, intervalTimeR := .ok 384, latestBlockTimeR := .ok 400
    beaconEnv := beaconEnvBase
    elHeaderForTimeR := .ok 499, elHeaderByNumberOk := true
    rewardIndexR := .ok 5
    isRunningAtCheck := false, rewardsFileExists := false
    hasSubmittedR := .ok false, readFileR := .ok 777, parseStoredR := .ok rfBase
    web3TokenSet := true, putResumeR := .ok 42
    archiveUrlSet := false, dialArchiveOk := true, newRocketPoolOk := true
    genResult := .ok rfBase, marshalPerfR := .ok 111, writePerfOk := true
    putPerfR := .ok 43, marshalWrapperR := .ok 222, writeTreeOk := true
    putTreeR := .ok 44, submitEnv := submitEnvBase }

/-- Submission environment whose gas-cost check fails. -/
def submitEnvDecline : SubmitEnv := { submitEnvBase with gasCheckPass := false }

/-- Environment whose latest block time lies before the recorded interval
start (start 10, duration 10, latest block time 5). -/
def envTrunc : RunEnv :=
  { envBase with startTimeR := .ok 10, intervalTimeR := .ok 10, latestBlockTimeR := .ok 5 }

/-- Environment in which no whole interval has passed yet. -/
def envZero : RunEnv := { envBase with latestBlockTimeR := .ok 100 }

/-- Environment in which two whole intervals have passed. -/
def envWarn : RunEnv := { envBase with latestBlockTimeR := .ok 800 }

/-- Environment in which two whole intervals have passed and the rewards file
for the interval already exists with no prior submission, so `run()` takes
the resume path. -/
def envWarnResume : RunEnv :=
  { envBase with
    latestBlockTimeR := .ok 800
    rewardsFileExists := true
    hasSubmittedR := .ok false }

/-- Beacon environment whose finalized epoch is behind the required epoch. -/
def beaconEnvNotFinal : BeaconEnv :=
  { beaconEnvBase with beaconHeadR := .ok { finalizedEpoch := 0 } }

/-- Environment hitting the not-yet-finalized wait condition. -/
def envNotFinal : RunEnv := { envBase with beaconEnv := beaconEnvNotFinal }

/-- Block-by-slot oracle where only slot 61 has a proposed block (slots 63 and
62 are missing), with execution block number 100. -/
def blocksWalk : Nat → Except Unit (Option BeaconBlockM) :=
  fun sl => if sl = 61 then .ok (some { executionBlockNumber := 100 }) else .ok none

/-- Beacon environment for the missing-slot walk scenario. -/
def beaconEnvWalk : BeaconEnv := { beaconEnvBase with getBeaconBlock := blocksWalk }

/-- Beacon environment whose blocks carry no execution block number
(pre-merge history). -/
def beaconEnvPreMerge : BeaconEnv :=
  { beaconEnvBase with
    getBeaconBlock := fun _ => .ok (some { executionBlockNumber := 0 }) }

/-- Environment exercising the pre-merge timestamp-resolution path. -/
def envPreMerge : RunEnv := { envBase with beaconEnv := beaconEnvPreMerge }

/-- Environment in which the rewards file already exists and the node has
already submitted for the interval. -/
def envResumeDone : RunEnv :=
  { envBase with rewardsFileExists := true, hasSubmittedR := .ok true }

/-- Environment in which the rewards file already exists and the node has not
yet submitted for the interval. -/
def envResumeRedo : RunEnv :=
  { envBase with rewardsFileExists := true, hasSubmittedR := .ok false }

/-- Per-network rewards of `rfBase`, as a function of the network id. -/
def vBase : Nat → NetworkRewardsM :=
  fun k => if k = 0 then ⟨1, 2, 3⟩ else if k = 1 then ⟨4, 5, 6⟩ else ⟨7, 8, 9⟩

/-- Helper: `takeWhile` passes over a prefix whose elements all satisfy the
predicate. -/
theorem takeWhile_append_of_all {α : Type} (p : α → Bool) (l1 l2 : List α)
    (h : ∀ x ∈ l1, p x = true) :
    (l1 ++ l2).takeWhile p = l1 ++ l2.takeWhile p := by
  induction l1 with
  | nil => rfl
  | cons a t ih => simp_all [List.takeWhile_cons]

/-- Helper: the background task's tail always ends with `isRunning` cleared,
whether it completes or fails. -/
theorem bodyTail_clears (env : RunEnv) (nodeTrusted : Bool)
    (currentIndex snapshotBeaconBlock elBlockIndex : Nat) (ip : Int)
    (rf : RewardsFileM) (ev : List Event) :
    (bodyTail env nodeTrusted currentIndex snapshotBeaconBlock elBlockIndex
      ip rf ev).isRunning = false := by
  unfold bodyTail handleErrorM
  dsimp only
  repeat' split
  all_goals rfl

/-- Helper: the background task always ends with `isRunning` cleared, whether
it completes or fails at any step. -/
theorem goroutineBody_clears (env : RunEnv) (nodeTrusted : Bool)
    (currentIndex snapshotBeaconBlock elBlockIndex : Nat) (ip : Int) :
    (goroutineBody env nodeTrusted currentIndex snapshotBeaconBlock elBlockIndex
      ip).isRunning = false := by
  unfold goroutineBody handleErrorM
  repeat' split
  all_goals first
    | rfl
    | exact bodyTail_clears ..

/-- Helper: transfer a pointwise implication along `List.all`. -/
theorem all_of_all_imp {α : Type} {l : List α} {p q : α → Bool}
    (h : l.all p = true) (himp : ∀ e, p e = true → q e = true) :
    l.all q = true := by
  rw [List.all_eq_true] at h ⊢
  exact fun e he => himp e (h e he)

/-- Helper: every event `submitRewardsSnapshotM` records is a tail event (in
fact the submission transaction). -/
theorem submit_events_all (senv : SubmitEnv) (index cb eb : Nat)
    (rf : RewardsFileM) (cid : Nat) (ip : Int) :
    ((submitRewardsSnapshotM senv index cb eb rf cid ip).2.all
      isGoroutineTailEvent) = true := by
  unfold submitRewardsSnapshotM
  dsimp only
  repeat' split
  all_goals simp [isGoroutineTailEvent]

/-- Helper: the tail of the background task only appends file-write, upload,
and submission events to the event list it is handed. -/
theorem bodyTail_events_split (env : RunEnv) (tr : Bool)
    (ci sb elb : Nat) (ip : Int) (rf : RewardsFileM) (ev : List Event) :
    ∃ l, (bodyTail env tr ci sb elb ip rf ev).events = ev ++ l ∧
      l.all isGoroutineTailEvent = true := by
  unfold bodyTail handleErrorM
  cases hm : env.marshalWrapperR with
  | error u => exact ⟨[], by simp, rfl⟩
  | ok wb =>
    dsimp only
    by_cases hw : (!env.writeTreeOk) = true
    · rw [if_pos hw]
      exact ⟨[], by simp, rfl⟩
    · rw [if_neg hw]
      by_cases ht : tr = true
      · rw [if_pos ht]
        cases hu : uploadFileToWeb3StorageM env.web3TokenSet env.putTreeR with
        | error u => exact ⟨[.wroteRewardsFile wb], by simp, by simp [isGoroutineTailEvent]⟩
        | ok cid =>
          cases hs : (submitRewardsSnapshotM env.submitEnv ci sb elb rf cid ip).1 with
          | error u =>
            refine ⟨[.wroteRewardsFile wb, .uploadedRewardsTree wb] ++
              (submitRewardsSnapshotM env.submitEnv ci sb elb rf cid ip).2, by simp [hs], ?_⟩
            simp [List.all_append, isGoroutineTailEvent, submit_events_all]
          | ok u =>
            refine ⟨[.wroteRewardsFile wb, .uploadedRewardsTree wb] ++
              (submitRewardsSnapshotM env.submitEnv ci sb elb rf cid ip).2, by simp [hs], ?_⟩
            simp [List.all_append, isGoroutineTailEvent, submit_events_all]
      · rw [if_neg ht]
        exact ⟨[.wroteRewardsFile wb], by simp, by simp [isGoroutineTailEvent]⟩

/-- Helper: the background task's events are its start events followed only
by file-write, upload, and submission events. -/
theorem goroutineBody_events_split (env : RunEnv) (tr : Bool)
    (ci sb elb : Nat) (ip : Int) :
    ∃ l, (goroutineBody env tr ci sb elb ip).events = startEvents ip ++ l ∧
      l.all isGoroutineTailEvent = true := by
  unfold goroutineBody handleErrorM
  dsimp only
  by_cases h1 : (env.archiveUrlSet && !env.dialArchiveOk) = true
  · rw [if_pos h1]
    exact ⟨[], by simp, rfl⟩
  · rw [if_neg h1]
    by_cases h2 : (env.archiveUrlSet && !env.newRocketPoolOk) = true
    · rw [if_pos h2]
      exact ⟨[], by simp, rfl⟩
    · rw [if_neg h2]
      cases hg : env.genResult with
      | error u => exact ⟨[], by simp, rfl⟩
      | ok rf =>
        cases hp : env.marshalPerfR with
        | error u => exact ⟨[], by simp, rfl⟩
        | ok pb =>
          dsimp only
          by_cases hwp : (!env.writePerfOk) = true
          · rw [if_pos hwp]
            exact ⟨[], by simp, rfl⟩
          · rw [if_neg hwp]
            by_cases ht : tr = true
            · rw [if_pos ht]
              cases hu : uploadFileToWeb3StorageM env.web3TokenSet env.putPerfR with
              | error u =>
                exact ⟨[.wroteMinipoolPerfFile pb], by simp, by simp [isGoroutineTailEvent]⟩
              | ok cid =>
                dsimp only
                obtain ⟨l, hl, hall⟩ := bodyTail_events_split env tr ci sb elb ip rf
                  ((startEvents ip ++ [.wroteMinipoolPerfFile pb]) ++
                    [.uploadedMinipoolPerf pb])
                refine ⟨[.wroteMinipoolPerfFile pb, .uploadedMinipoolPerf pb] ++ l, ?_, ?_⟩
                · rw [hl]
                  simp
                · simp only [List.all_append, List.all_cons, hall]
                  simp [isGoroutineTailEvent]
            · rw [if_neg ht]
              obtain ⟨l, hl, hall⟩ := bodyTail_events_split env tr ci sb elb ip rf
                (startEvents ip ++ [.wroteMinipoolPerfFile pb])
              refine ⟨[.wroteMinipoolPerfFile pb] ++ l, ?_, ?_⟩
              · rw [hl]
                simp
              · simp only [List.all_append, List.all_cons, hall]
                simp [isGoroutineTailEvent]

/-- Helper: the start events never include write, upload, header, or
submission events. -/
theorem startEvents_all_not (ip : Int) :
    ((startEvents ip).all fun e => !(isGoroutineTailEvent e) && !(isHeaderEvent e)) = true := by
  unfold startEvents
  split
  · rfl
  · rfl

/-- Helper: the warning about multiple missed intervals is logged by the
background task exactly when the (cast) interval count exceeds one. -/
theorem warn_mem_goroutineBody_iff (env : RunEnv) (tr : Bool)
    (ci sb elb : Nat) (ip : Int) :
    (Event.warnMultipleIntervals ∈ (goroutineBody env tr ci sb elb ip).events) ↔
      1 < ((ip % (2 ^ 64 : Int)).toNat) := by
  obtain ⟨l, hl, hall⟩ := goroutineBody_events_split env tr ci sb elb ip
  rw [hl]
  constructor
  · intro h
    rcases List.mem_append.mp h with h1 | h2
    · unfold startEvents at h1
      by_cases hc : 1 < ((ip % (2 ^ 64 : Int)).toNat)
      · exact hc
      · rw [if_neg hc] at h1
        simp at h1
    · have := List.all_eq_true.mp hall _ h2
      simp [isGoroutineTailEvent] at this
  · intro h
    refine List.mem_append.mpr (Or.inl ?_)
    unfold startEvents
    rw [if_pos h]
    simp

/-- Helper: no event after the execution-reference resolution is a header
fetch event. -/
theorem afterEl_events_no_header (env : RunEnv) (tr : Bool) (ip : Int)
    (sb elb : Nat) :
    ((afterElResolution env tr ip sb elb).events.all
      fun e => !(isHeaderEvent e)) = true := by
  have hsub : ∀ (senv : SubmitEnv) (i2 cb2 eb2 : Nat) (rf2 : RewardsFileM)
      (cid2 : Nat) (ip2 : Int),
      ((submitRewardsSnapshotM senv i2 cb2 eb2 rf2 cid2 ip2).2.all
        fun e => !(isHeaderEvent e)) = true := by
    intro senv i2 cb2 eb2 rf2 cid2 ip2
    refine all_of_all_imp (submit_events_all senv i2 cb2 eb2 rf2 cid2 ip2) ?_
    intro e he
    cases e <;> simp_all [isGoroutineTailEvent, isHeaderEvent]
  have hgo : ∀ (tr2 : Bool) (ci2 sb2 elb2 : Nat) (ip2 : Int),
      ((goroutineBody env tr2 ci2 sb2 elb2 ip2).events.all
        fun e => !(isHeaderEvent e)) = true := by
    intro tr2 ci2 sb2 elb2 ip2
    obtain ⟨l, hl, hall⟩ := goroutineBody_events_split env tr2 ci2 sb2 elb2 ip2
    rw [hl, List.all_append, Bool.and_eq_true]
    refine ⟨?_, ?_⟩
    · refine all_of_all_imp (startEvents_all_not ip2) ?_
      intro e he
      rw [Bool.and_eq_true] at he
      exact he.2
    · refine all_of_all_imp hall ?_
      intro e he
      cases e <;> simp_all [isGoroutineTailEvent, isHeaderEvent]
  unfold afterElResolution
  dsimp only
  repeat' split
  all_goals first
    | rfl
    | exact hgo ..
    | (simp only [List.all_append, List.all_cons, Bool.and_eq_true]
       refine ⟨?_, ?_⟩
       · simp [isHeaderEvent]
       · exact hsub _ _ _ _ _ _ _)

/-- C1 counterexample.  The claim asserts that the check-and-set of
`isRunning` is one atomic critical section, so that when invocations of
`run()` overlap a background generation in flight, at most one begins the
expensive generation path and the others observe `isRunning = true` and
return as no-ops.  In the source the check (lines 171-177) and the set
(lines 234-236, inside the spawned goroutine) are separate critical
sections.  Concretely: with a background generation in flight (thread 2 has
passed the check and spawned its task, which has not yet set the flag) and
two fresh invocations (threads 0 and 1), the schedule 0, 1, 2, 0, 1 lets
both fresh invocations pass the check, and all three end up inside the
expensive generation path simultaneously, none returning as a no-op. -/
theorem C1_single_flight_counterexample :
    (execSched { isRunning := false, threads := [.atCheck, .atCheck, .atSet] }
      [0, 1, 2, 0, 1]).threads = [.generating, .generating, .generating] ∧
    2 ≤ ((execSched { isRunning := false, threads := [.atCheck, .atCheck, .atSet] }
      [0, 1, 2, 0, 1]).threads.count .generating) ∧
    ((execSched { isRunning := false, threads := [.atCheck, .atCheck, .atSet] }
      [0, 1, 2, 0, 1]).threads.count .doneNoop) = 0 := by
  decide

/-- C1 (amended): each individual read-modify-write of `isRunning` (the
check, the set, and the clear) holds the lock for its own critical section,
and any invocation whose check observes `isRunning = true` returns
immediately as a clean no-op — it moves to the terminal `doneNoop` phase
without touching the flag, and a `doneNoop` invocation never takes another
step.  However, because the check and the set are separate critical
sections, overlapping invocations that all pass the check before any of
their background tasks sets the flag can each begin the expensive
generation path (see the counterexample). -/
theorem C1_single_flight (s : TState) (i : Nat)
    (hc : s.threads[i]? = some Phase.atCheck) (hr : s.isRunning = true) :
    stepThread s i = { isRunning := true, threads := s.threads.set i Phase.doneNoop } ∧
    ∀ s2 : TState, s2.threads[i]? = some Phase.doneNoop → stepThread s2 i = s2 := by
  constructor
  · simp [stepThread, hc, hr]
  · intro s2 h2
    simp [stepThread, h2]

/-- C1 witness: a concrete invocation that checks while the flag is set
returns as a no-op. -/
theorem C1_single_flight_witness :
    stepThread { isRunning := true, threads := [Phase.atCheck] } 0 =
      { isRunning := true, threads := [Phase.doneNoop] } :=
  (C1_single_flight { isRunning := true, threads := [Phase.atCheck] } 0 rfl rfl).1

/-- C8: whenever the gas-cost check against the configured maximum fee
fails, `submitRewardsSnapshot` returns nil — not an error — having recorded
no submission transaction, and (the run being treated as declined rather
than failed) the background generation state still clears normally. -/
theorem C8_gas_ceiling (senv : SubmitEnv) (index cb eb : Nat)
    (rf : RewardsFileM) (cid : Nat) (ip : Int)
    (h1 : senv.rootDecodeOk = true) (h2 : senv.transactorOk = true)
    (h3 : senv.gasEstimateOk = true) (h4 : senv.gasCheckPass = false) :
    submitRewardsSnapshotM senv index cb eb rf cid ip = (.ok (), []) ∧
    ∀ (env : RunEnv) (tr : Bool) (ci sb elb : Nat) (ip2 : Int),
      (goroutineBody env tr ci sb elb ip2).isRunning = false := by
  constructor
  · simp [submitRewardsSnapshotM, h1, h2, h3, h4]
  · intro env tr ci sb elb ip2
    exact goroutineBody_clears env tr ci sb elb ip2

/-- C8 witness: the concrete declining submission environment returns nil
with no transaction. -/
theorem C8_gas_ceiling_witness :
    submitRewardsSnapshotM submitEnvDecline 5 63 500 rfBase 44 1 = (.ok (), []) :=
  (C8_gas_ceiling submitEnvDecline 5 63 500 rfBase 44 1 rfl rfl rfl rfl).1

/-- C9: every execution of the background generation task — whether it
completes or fails at any step — ends with `isRunning = false`; all failure
paths funnel through the single handler `handleError`, which clears the
flag under the lock, so the guard never remains wedged after an error. -/
theorem C9_guard_release (env : RunEnv) (nodeTrusted : Bool)
    (currentIndex snapshotBeaconBlock elBlockIndex : Nat) (ip : Int) :
    (goroutineBody env nodeTrusted currentIndex snapshotBeaconBlock
      elBlockIndex ip).isRunning = false ∧
    ∀ ev : List Event, (handleErrorM ev).isRunning = false :=
  ⟨goroutineBody_clears env nodeTrusted currentIndex snapshotBeaconBlock
    elBlockIndex ip, fun _ => rfl⟩

/-- Helper: a network id that the lookup finds is a key of the map. -/
theorem lookupNet_isSome_mem (k : Nat) (m : List (Nat × NetworkRewardsM))
    (h : (lookupNet k m).isSome = true) : k ∈ m.map Prod.fst := by
  induction m with
  | nil => simp [lookupNet] at h
  | cons a rest ih =>
    rcases a with ⟨k2, v2⟩
    by_cases hk : k = k2
    · simp [hk]
    · simp only [lookupNet, if_neg hk] at h
      simp [ih h]

/-- Helper: if every network id below `n` is present in the map, then `n` is
at most the map's length — which is why the loop's fuel of `length + 1`
never runs out. -/
theorem firstGap_le_length (m : List (Nat × NetworkRewardsM)) (n : Nat)
    (h : ∀ k, k < n → (lookupNet k m).isSome = true) : n ≤ m.length := by
  have hsub : Finset.range n ⊆ (m.map Prod.fst).toFinset := by
    intro k hk
    rw [List.mem_toFinset]
    exact lookupNet_isSome_mem k m (h k (Finset.mem_range.mp hk))
  have h1 : n ≤ (m.map Prod.fst).toFinset.card := by
    have := Finset.card_le_card hsub
    simpa using this
  have h2 : (m.map Prod.fst).toFinset.card ≤ (m.map Prod.fst).length :=
    (m.map Prod.fst).toFinset_card_le
  have h3 : (m.map Prod.fst).length = m.length := List.length_map _ _
  omega

/-- Helper: the per-network loop, started at id `k` with ids
`k, …, k + i - 1` present and `k + i` absent, returns exactly the three
field lists over those ids, given more than `i` fuel. -/
theorem buildNetworkArraysGo_spec (m : List (Nat × NetworkRewardsM))
    (v : Nat → NetworkRewardsM) :
    ∀ (i k fuel : Nat),
      (∀ j, j < i → lookupNet (k + j) m = some (v (k + j))) →
      lookupNet (k + i) m = none → i < fuel →
      buildNetworkArraysGo m fuel k =
        ((List.range i).map fun j => (v (k + j)).collateralRpl,
         (List.range i).map fun j => (v (k + j)).oracleDaoRpl,
         (List.range i).map fun j => (v (k + j)).smoothingPoolEth) := by
  intro i
  induction i with
  | zero =>
    intro k fuel hdef hgap hfuel
    rcases fuel with _ | f
    · omega
    · simp only [buildNetworkArraysGo]
      rw [show k + 0 = k from rfl] at hgap
      rw [hgap]
      simp
  | succ i ih =>
    intro k fuel hdef hgap hfuel
    rcases fuel with _ | f
    · omega
    · have harr : ∀ {α : Type} (g : Nat → α),
          g k :: (List.range i).map (fun j => g (k + 1 + j)) =
            (List.range (i + 1)).map (fun j => g (k + j)) := by
        intro α g
        rw [List.range_succ_eq_map, List.map_cons, List.map_map]
        refine congrArg₂ List.cons (by simp) (List.map_congr_left ?_)
        intro j hj
        simp only [Function.comp_def]
        congr 1
        omega
      simp only [buildNetworkArraysGo]
      have h0 : lookupNet k m = some (v k) := by
        have := hdef 0 (Nat.succ_pos i)
        simpa using this
      rw [h0]
      have hrec := ih (k + 1) f
        (fun j hj => by
          have hx := hdef (j + 1) (by omega)
          have heq : k + (j + 1) = k + 1 + j := by omega
          rw [heq] at hx
          exact hx)
        (by
          have heq : k + (i + 1) = k + 1 + i := by omega
          rw [heq] at hgap
          exact hgap)
        (by omega)
      rw [hrec]
      dsimp only
      simp only [Prod.mk.injEq]
      exact ⟨harr (fun t => (v t).collateralRpl),
        harr (fun t => (v t).oracleDaoRpl),
        harr (fun t => (v t).smoothingPoolEth)⟩

/-- C7: for a rewards file whose per-network map is defined exactly on the
ids below `n` (the first gap), the submission assembled by
`submitRewardsSnapshot` carries collateral-RPL, oracle-DAO-RPL and
smoothing-pool-ETH arrays that are precisely the per-network values in
ascending network-id order, each of length `n`. -/
theorem C7_dense_network_arrays (rf : RewardsFileM) (n : Nat)
    (v : Nat → NetworkRewardsM)
    (hdef : ∀ k, k < n → lookupNet k rf.networkRewards = some (v k))
    (hgap : lookupNet n rf.networkRewards = none)
    (index cb eb cid : Nat) (ip : Int) :
    (mkSubmission index cb eb rf cid ip).nodeRpl =
      (List.range n).map (fun k => (v k).collateralRpl) ∧
    (mkSubmission index cb eb rf cid ip).trustedNodeRpl =
      (List.range n).map (fun k => (v k).oracleDaoRpl) ∧
    (mkSubmission index cb eb rf cid ip).nodeEth =
      (List.range n).map (fun k => (v k).smoothingPoolEth) ∧
    (mkSubmission index cb eb rf cid ip).nodeRpl.length = n ∧
    (mkSubmission index cb eb rf cid ip).trustedNodeRpl.length = n ∧
    (mkSubmission index cb eb rf cid ip).nodeEth.length = n := by
  have hle : n ≤ rf.networkRewards.length :=
    firstGap_le_length rf.networkRewards n
      (fun k hk => by rw [hdef k hk]; rfl)
  have hspec := buildNetworkArraysGo_spec rf.networkRewards v n 0
    (rf.networkRewards.length + 1)
    (fun j hj => by simpa using hdef j hj)
    (by simpa using hgap) (by omega)
  have hmap : ∀ {α : Type} (g : Nat → α),
      (List.range n).map (fun j => g (0 + j)) = (List.range n).map g := by
    intro α g
    refine List.map_congr_left ?_
    intro j hj
    simp
  unfold mkSubmission buildNetworkArrays
  rw [hspec]
  dsimp only
  refine ⟨hmap (fun t => (v t).collateralRpl), hmap (fun t => (v t).oracleDaoRpl),
    hmap (fun t => (v t).smoothingPoolEth), ?_, ?_, ?_⟩ <;> simp

/-- C7 witness: networks 0, 1, 2 present, nothing at 3, gives arrays of
exactly length 3 in ascending network-id order. -/
theorem C7_dense_network_arrays_witness :
    (mkSubmission 5 63 500 rfBase 44 1).nodeRpl = [1, 4, 7] ∧
    (mkSubmission 5 63 500 rfBase 44 1).trustedNodeRpl = [2, 5, 8] ∧
    (mkSubmission 5 63 500 rfBase 44 1).nodeEth = [3, 6, 9] ∧
    (mkSubmission 5 63 500 rfBase 44 1).nodeRpl.length = 3 := by
  have h := C7_dense_network_arrays rfBase 3 vBase (by decide) (by decide)
    5 63 500 44 1
  refine ⟨?_, ?_, ?_, ?_⟩
  · rw [h.1]
    rfl
  · rw [h.2.1]
    rfl
  · rw [h.2.2.1]
    rfl
  · rw [h.2.2.2.1]

/-- Helper: when the client waits and registry reads succeed, the trusted/mode
gate passes, and at least one whole interval has passed, `run()` reduces to
its snapshot-selection tail. -/
theorem runModel_reaches (env : RunEnv) (nodeTrusted : Bool)
    (startTime intervalTime latestBlockTime : Int)
    (h1 : env.ethSynced = true) (h2 : env.beaconSynced = true)
    (h3 : env.nodeAccountOk = true) (h4 : env.nodeTrustedR = .ok nodeTrusted)
    (hgate : nodeTrusted = true ∨ env.modeGenerate = true)
    (h5 : env.startTimeR = .ok startTime)
    (h6 : env.intervalTimeR = .ok intervalTime)
    (h7 : env.latestBlockTimeR = .ok latestBlockTime)
    (hip : intervalsPassedOf startTime intervalTime latestBlockTime ≠ 0) :
    runModel env = runFromSnapshot env nodeTrusted
      (intervalsPassedOf startTime intervalTime latestBlockTime)
      (endTimeOf startTime intervalTime latestBlockTime) := by
  unfold runModel
  rw [h1, h2, h3, h4, h5, h6, h7]
  have hgateb : (!nodeTrusted && !env.modeGenerate) = false := by
    rcases hgate with hg | hg <;> rw [hg] <;> simp
  simp only [Bool.not_true, Bool.not_false, if_false, if_true, hgateb]
  rw [if_neg hip]
  simp

/-- Helper: when the reads succeed and the gate passes but no whole interval
has passed, `run()` returns nil with no events. -/
theorem runModel_zero (env : RunEnv) (nodeTrusted : Bool)
    (startTime intervalTime latestBlockTime : Int)
    (h1 : env.ethSynced = true) (h2 : env.beaconSynced = true)
    (h3 : env.nodeAccountOk = true) (h4 : env.nodeTrustedR = .ok nodeTrusted)
    (hgate : nodeTrusted = true ∨ env.modeGenerate = true)
    (h5 : env.startTimeR = .ok startTime)
    (h6 : env.intervalTimeR = .ok intervalTime)
    (h7 : env.latestBlockTimeR = .ok latestBlockTime)
    (hip : intervalsPassedOf startTime intervalTime latestBlockTime = 0) :
    runModel env = ⟨.ok (), [], env.isRunningAtCheck⟩ := by
  unfold runModel
  rw [h1, h2, h3, h4, h5, h6, h7]
  have hgateb : (!nodeTrusted && !env.modeGenerate) = false := by
    rcases hgate with hg | hg <;> rw [hg] <;> simp
  simp only [Bool.not_true, Bool.not_false, if_false, if_true, hgateb]
  rw [if_pos hip]
  simp

/-- Helper: the backward walk returns the greatest slot at or below the
starting slot that has a proposed block, skipping every missing slot above
it one at a time. -/
theorem walkSlots_spec (getBlock : Nat → Except Unit (Option BeaconBlockM))
    (b : BeaconBlockM) (s : Nat) :
    ∀ target : Nat, s ≤ target →
      getBlock s = .ok (some b) →
      (∀ s2, s < s2 → s2 ≤ target → getBlock s2 = .ok none) →
      walkSlots getBlock target = .ok (s, b) := by
  intro target
  induction target with
  | zero =>
    intro hle hb habove
    have hs : s = 0 := Nat.le_zero.mp hle
    subst hs
    simp only [walkSlots]
    rw [hb]
  | succ t ih =>
    intro hle hb habove
    by_cases he : s = t + 1
    · subst he
      simp only [walkSlots]
      rw [hb]
    · have hnone : getBlock (t + 1) = .ok none :=
        habove (t + 1) (by omega) (by omega)
      simp only [walkSlots]
      rw [hnone]
      exact ih (by omega) hb (fun s2 ha hb2 => habove s2 ha (by omega))

/-- C3: the snapshot selection derives the raw target slot as the ceiling of
(endTime − genesisTime) / secondsPerSlot (characterized by its Galois
property), rounds it up to the last slot of its containing epoch, and
requires the epoch after the target epoch to be finalized; whenever the
chain's finalized epoch is below that required epoch, selection fails with
the not-yet-finalized condition, and `run()` stops with that condition
having produced no events — no generation, no file write, no upload, no
submission. -/
theorem C3_finality_gate (env : RunEnv) (nodeTrusted : Bool)
    (startTime intervalTime latestBlockTime : Int)
    (cfg : Eth2ConfigM) (head : BeaconHeadM)
    (h1 : env.ethSynced = true) (h2 : env.beaconSynced = true)
    (h3 : env.nodeAccountOk = true) (h4 : env.nodeTrustedR = .ok nodeTrusted)
    (hgate : nodeTrusted = true ∨ env.modeGenerate = true)
    (h5 : env.startTimeR = .ok startTime)
    (h6 : env.intervalTimeR = .ok intervalTime)
    (h7 : env.latestBlockTimeR = .ok latestBlockTime)
    (hip : intervalsPassedOf startTime intervalTime latestBlockTime ≠ 0)
    (hcfg : env.beaconEnv.eth2ConfigR = .ok cfg)
    (hhead : env.beaconEnv.beaconHeadR = .ok head)
    (hsps : 0 < cfg.secondsPerSlot)
    (hfin : head.finalizedEpoch <
      requiredEpochOf cfg (endTimeOf startTime intervalTime latestBlockTime)) :
    (∀ n : Nat,
      rawTargetSlotOf cfg (endTimeOf startTime intervalTime latestBlockTime) ≤ n ↔
      (endTimeOf startTime intervalTime latestBlockTime -
        (cfg.genesisTime : Int)).toNat ≤ n * cfg.secondsPerSlot) ∧
    requiredEpochOf cfg (endTimeOf startTime intervalTime latestBlockTime) =
      rawTargetSlotOf cfg (endTimeOf startTime intervalTime latestBlockTime) /
        cfg.slotsPerEpoch + 1 ∧
    snapshotTargetSlotOf cfg (endTimeOf startTime intervalTime latestBlockTime) =
      (rawTargetSlotOf cfg (endTimeOf startTime intervalTime latestBlockTime) /
        cfg.slotsPerEpoch) * cfg.slotsPerEpoch + (cfg.slotsPerEpoch - 1) ∧
    getSnapshotConsensusBlock env.beaconEnv
        (endTimeOf startTime intervalTime latestBlockTime) =
      .error (.notFinalized
        (requiredEpochOf cfg (endTimeOf startTime intervalTime latestBlockTime))
        head.finalizedEpoch) ∧
    runModel env =
      ⟨.error (.snapshot (.notFinalized
        (requiredEpochOf cfg (endTimeOf startTime intervalTime latestBlockTime))
        head.finalizedEpoch)), [], env.isRunningAtCheck⟩ := by
  have hgss : getSnapshotConsensusBlock env.beaconEnv
      (endTimeOf startTime intervalTime latestBlockTime) =
      .error (.notFinalized
        (requiredEpochOf cfg (endTimeOf startTime intervalTime latestBlockTime))
        head.finalizedEpoch) := by
    unfold getSnapshotConsensusBlock
    rw [hcfg, hhead]
    dsimp only
    rw [if_pos hfin]
  refine ⟨?_, rfl, rfl, hgss, ?_⟩
  · intro n
    unfold rawTargetSlotOf ceilDivNat
    rw [Nat.div_le_iff_le_mul_add_pred hsps, Nat.mul_comm n cfg.secondsPerSlot]
    generalize (endTimeOf startTime intervalTime latestBlockTime -
      (cfg.genesisTime : Int)).toNat = a
    generalize cfg.secondsPerSlot * n = q
    omega
  · rw [runModel_reaches env nodeTrusted startTime intervalTime latestBlockTime
      h1 h2 h3 h4 hgate h5 h6 h7 hip]
    unfold runFromSnapshot
    rw [hgss]

/-- C3 witness: with an interval elapsed and the finalized epoch at 0 while
epoch 2 is required, `run()` returns the not-yet-finalized condition with no
events. -/
theorem C3_finality_gate_witness :
    getSnapshotConsensusBlock envNotFinal.beaconEnv (endTimeOf 0 384 400) =
      .error (.notFinalized 2 0) ∧
    runModel envNotFinal =
      ⟨.error (.snapshot (.notFinalized 2 0)), [], false⟩ := by
  have h := C3_finality_gate envNotFinal true 0 384 400
    { genesisTime := 0, secondsPerSlot := 12, slotsPerEpoch := 32,
      secondsPerEpoch := 384 }
    { finalizedEpoch := 0 }
    rfl rfl rfl rfl (Or.inl rfl) rfl rfl rfl (by decide) rfl rfl
    (by decide) (by decide)
  exact ⟨h.2.2.2.1.trans (by decide), h.2.2.2.2.trans (by decide)⟩

/-- C4: once finality is satisfied, the selection queries the block at the
target slot and decrements once per missing slot until the first slot with a
proposed block, returning that slot, its block's execution block number, and
the reference timestamp genesis + requiredEpoch * secondsPerEpoch. -/
theorem C4_missing_slot_walk (benv : BeaconEnv) (endTime : Int)
    (cfg : Eth2ConfigM) (head : BeaconHeadM) (s : Nat) (b : BeaconBlockM)
    (hcfg : benv.eth2ConfigR = .ok cfg)
    (hhead : benv.beaconHeadR = .ok head)
    (hfin : requiredEpochOf cfg endTime ≤ head.finalizedEpoch)
    (hle : s ≤ snapshotTargetSlotOf cfg endTime)
    (hb : benv.getBeaconBlock s = .ok (some b))
    (habove : ∀ s2, s < s2 → s2 ≤ snapshotTargetSlotOf cfg endTime →
      benv.getBeaconBlock s2 = .ok none) :
    getSnapshotConsensusBlock benv endTime =
      .ok (s, b.executionBlockNumber,
        (cfg.genesisTime : Int) +
          ((requiredEpochOf cfg endTime * cfg.secondsPerEpoch : Nat) : Int)) := by
  unfold getSnapshotConsensusBlock
  rw [hcfg, hhead]
  dsimp only
  rw [if_neg (Nat.not_lt.mpr hfin)]
  rw [walkSlots_spec benv.getBeaconBlock b s
    (snapshotTargetSlotOf cfg endTime) hle hb habove]

/-- C4 witness: with slots 63 and 62 missing and slot 61 proposed (execution
block 100), selection walks back twice and returns slot 61, execution block
100, and reference timestamp 768 = genesis + 2 * 384. -/
theorem C4_missing_slot_walk_witness :
    getSnapshotConsensusBlock beaconEnvWalk 756 = .ok (61, 100, 768) := by
  have h := C4_missing_slot_walk beaconEnvWalk 756
    { genesisTime := 0, secondsPerSlot := 12, slotsPerEpoch := 32,
      secondsPerEpoch := 384 }
    { finalizedEpoch := 1000 } 61 { executionBlockNumber := 100 }
    rfl rfl (by decide) (by decide) rfl ?_
  · exact h.trans (by decide)
  · intro s2 h1 h2
    show blocksWalk s2 = .ok none
    unfold blocksWalk
    rw [if_neg (by omega : ¬s2 = 61)]

/-- C2 counterexample, falsifying two parts of the claim at concrete inputs.
First, the claim asserts that for every registry start time, interval
duration, and latest execution-block timestamp, `run()` computes
`intervalsPassed = floor((latestBlockTime - startTime) / intervalTime)`:
Go duration division truncates toward zero, which differs from floor when
the elapsed time is negative — with start 10, duration 10 and latest block
time 5 the code computes 0 (and returns nil), while the floor is -1.
Second, the claim asserts that a warning is logged whenever
`intervalsPassed > 1`: in the resume-path environment `envWarnResume`, two
whole intervals have passed (start 0, duration 384, latest block time 800)
and `run()` proceeds all the way to a submission carrying
`intervalsPassed = 2`, yet its events contain no warning — the warning is
logged only on the background generation path (source line 240), which the
resume path (lines 185-230) never enters. -/
theorem C2_interval_clock_counterexample :
    intervalsPassedOf 10 10 5 = 0 ∧
    specIntervalsPassed 10 10 5 = -1 ∧
    intervalsPassedOf 10 10 5 ≠ specIntervalsPassed 10 10 5 ∧
    runModel envTrunc = ⟨.ok (), [], false⟩ ∧
    intervalsPassedOf 0 384 800 = 2 ∧
    runModel envWarnResume = ⟨.ok (), [.headerByNumber 500,
      .uploadedRewardsTree 777,
      .submittedTx (mkSubmission 5 95 500 rfBase 42 2)], false⟩ ∧
    (mkSubmission 5 95 500 rfBase 42 2).intervalsPassed = 2 ∧
    Event.warnMultipleIntervals ∉ (runModel envWarnResume).events := by
  refine ⟨by decide, by decide, by decide, by decide, by decide, by decide,
    by decide, by decide⟩

/-- C2 (amended): whenever the latest block time is at or after the recorded
interval start (the on-chain invariant), the truncating duration division
the source computes agrees with the specified floor; whenever it is zero,
`run()` returns nil having performed no work; the end time handed to
snapshot selection equals start + duration * intervalsPassed; and on the
background generation path the multiple-missed-intervals warning is logged
exactly when intervalsPassed exceeds one. -/
theorem C2_interval_clock (env : RunEnv) (nodeTrusted : Bool)
    (startTime intervalTime latestBlockTime : Int)
    (tr2 : Bool) (ci2 sb2 elb2 : Nat)
    (h1 : env.ethSynced = true) (h2 : env.beaconSynced = true)
    (h3 : env.nodeAccountOk = true) (h4 : env.nodeTrustedR = .ok nodeTrusted)
    (hgate : nodeTrusted = true ∨ env.modeGenerate = true)
    (h5 : env.startTimeR = .ok startTime)
    (h6 : env.intervalTimeR = .ok intervalTime)
    (h7 : env.latestBlockTimeR = .ok latestBlockTime)
    (hpos : 0 < intervalTime) (hle : startTime ≤ latestBlockTime)
    (hlt : intervalsPassedOf startTime intervalTime latestBlockTime < 2 ^ 64) :
    intervalsPassedOf startTime intervalTime latestBlockTime =
      specIntervalsPassed startTime intervalTime latestBlockTime ∧
    (intervalsPassedOf startTime intervalTime latestBlockTime = 0 →
      runModel env = ⟨.ok (), [], env.isRunningAtCheck⟩) ∧
    endTimeOf startTime intervalTime latestBlockTime =
      startTime + intervalTime *
        intervalsPassedOf startTime intervalTime latestBlockTime ∧
    (Event.warnMultipleIntervals ∈
        (goroutineBody env tr2 ci2 sb2 elb2
          (intervalsPassedOf startTime intervalTime latestBlockTime)).events ↔
      1 < intervalsPassedOf startTime intervalTime latestBlockTime) := by
  have hip0 : 0 ≤ intervalsPassedOf startTime intervalTime latestBlockTime :=
    Int.tdiv_nonneg (by omega) (by omega)
  refine ⟨?_, ?_, rfl, ?_⟩
  · exact (Int.fdiv_eq_tdiv (by omega) (by omega)).symm
  · intro hip
    exact runModel_zero env nodeTrusted startTime intervalTime latestBlockTime
      h1 h2 h3 h4 hgate h5 h6 h7 hip
  · rw [warn_mem_goroutineBody_iff, Int.emod_eq_of_lt hip0 hlt]
    omega

/-- C2 witness: with no interval elapsed `run()` is a clean no-op; with two
intervals elapsed the background task logs the warning; and the truncating
division agrees with floor on the operational domain. -/
theorem C2_interval_clock_witness :
    runModel envZero = ⟨.ok (), [], false⟩ ∧
    Event.warnMultipleIntervals ∈ (goroutineBody envWarn true 5 95 500 2).events ∧
    intervalsPassedOf 0 384 800 = specIntervalsPassed 0 384 800 := by
  have hz := C2_interval_clock envZero true 0 384 100 true 5 95 500
    rfl rfl rfl rfl (Or.inl rfl) rfl rfl rfl (by decide) (by decide) (by decide)
  have hw := C2_interval_clock envWarn true 0 384 800 true 5 95 500
    rfl rfl rfl rfl (Or.inl rfl) rfl rfl rfl (by decide) (by decide) (by decide)
  refine ⟨hz.2.1 (by decide), ?_, hw.1⟩
  have hmem := (hw.2.2.2).mpr (by decide)
  have he : intervalsPassedOf 0 384 800 = 2 := by decide
  rw [he] at hmem
  exact hmem

/-- C5: for every invocation that reaches execution-reference resolution,
exactly one of the two paths is taken: when the selected consensus block
carries a nonzero execution block number, the header is fetched by that
number and the timestamp-resolution path is never used; when it carries
none, the header is resolved by timestamp search near the reference
timestamp and the by-number path is never used. -/
theorem C5_el_reference (env : RunEnv) (nodeTrusted : Bool)
    (startTime intervalTime latestBlockTime : Int) (sb elN : Nat) (t : Int)
    (h1 : env.ethSynced = true) (h2 : env.beaconSynced = true)
    (h3 : env.nodeAccountOk = true) (h4 : env.nodeTrustedR = .ok nodeTrusted)
    (hgate : nodeTrusted = true ∨ env.modeGenerate = true)
    (h5 : env.startTimeR = .ok startTime)
    (h6 : env.intervalTimeR = .ok intervalTime)
    (h7 : env.latestBlockTimeR = .ok latestBlockTime)
    (hip : intervalsPassedOf startTime intervalTime latestBlockTime ≠ 0)
    (hgss : getSnapshotConsensusBlock env.beaconEnv
      (endTimeOf startTime intervalTime latestBlockTime) = .ok (sb, elN, t)) :
    (elN ≠ 0 → Event.headerByNumber elN ∈ (runModel env).events ∧
      ∀ t2 : Int, Event.headerForTime t2 ∉ (runModel env).events) ∧
    (elN = 0 → Event.headerForTime t ∈ (runModel env).events ∧
      ∀ n2 : Nat, Event.headerByNumber n2 ∉ (runModel env).events) := by
  rw [runModel_reaches env nodeTrusted startTime intervalTime latestBlockTime
    h1 h2 h3 h4 hgate h5 h6 h7 hip]
  unfold runFromSnapshot
  rw [hgss]
  dsimp only
  have hnoh : ∀ (elb : Nat) (e : Event),
      e ∈ (afterElResolution env nodeTrusted
        (intervalsPassedOf startTime intervalTime latestBlockTime) sb elb).events →
      isHeaderEvent e = false := by
    intro elb e he
    have := List.all_eq_true.mp
      (afterEl_events_no_header env nodeTrusted
        (intervalsPassedOf startTime intervalTime latestBlockTime) sb elb) e he
    simpa using this
  cases hres : elResolveOf env elN with
  | error u =>
    constructor
    · intro hne
      refine ⟨by simp [elEventsOf, hne], ?_⟩
      intro t2
      simp [elEventsOf, hne]
    · intro heq
      refine ⟨by simp [elEventsOf, heq], ?_⟩
      intro n2
      simp [elEventsOf, heq]
  | ok elb =>
    constructor
    · intro hne
      constructor
      · refine List.mem_append.mpr (Or.inl ?_)
        simp [elEventsOf, hne]
      · intro t2 hmem
        rcases List.mem_append.mp hmem with hm | hm
        · rw [elEventsOf, if_neg hne] at hm
          simp at hm
        · have := hnoh elb _ hm
          simp [isHeaderEvent] at this
    · intro heq
      constructor
      · refine List.mem_append.mpr (Or.inl ?_)
        simp [elEventsOf, heq]
      · intro n2 hmem
        rcases List.mem_append.mp hmem with hm | hm
        · rw [elEventsOf, if_pos heq] at hm
          simp at hm
        · have := hnoh elb _ hm
          simp [isHeaderEvent] at this

/-- C5 witness: a post-merge snapshot (execution block 500) takes the
by-number path, and a pre-merge snapshot (execution block number 0) takes
the timestamp-resolution path. -/
theorem C5_el_reference_witness :
    (Event.headerByNumber 500 ∈ (runModel envBase).events ∧
      Event.headerForTime 768 ∉ (runModel envBase).events) ∧
    (Event.headerForTime 768 ∈ (runModel envPreMerge).events ∧
      Event.headerByNumber 500 ∉ (runModel envPreMerge).events) := by
  have hpost := C5_el_reference envBase true 0 384 400 63 500 768
    rfl rfl rfl rfl (Or.inl rfl) rfl rfl rfl (by decide) (by decide)
  have hpre := C5_el_reference envPreMerge true 0 384 400 63 0 768
    rfl rfl rfl rfl (Or.inl rfl) rfl rfl rfl (by decide) (by decide)
  have h1 := hpost.1 (by decide)
  have h2 := hpre.2 rfl
  exact ⟨⟨h1.1, h1.2 768⟩, ⟨h2.1, h2.2 500⟩⟩

/-- C6: resume decision for a trusted node with a persisted artifact.  If the
node has already submitted for the interval, `run()` returns success having
performed no upload, no transaction, and no generation.  If it has not,
`run()` uploads the stored file bytes unchanged and submits with the Merkle
root carried by the deserialized stored file, never starting the tree
builder. -/
theorem C6_resume_decision (env : RunEnv)
    (startTime intervalTime latestBlockTime : Int) (sb elN : Nat) (t : Int)
    (elb currentIndex : Nat)
    (h1 : env.ethSynced = true) (h2 : env.beaconSynced = true)
    (h3 : env.nodeAccountOk = true) (h4 : env.nodeTrustedR = .ok true)
    (h5 : env.startTimeR = .ok startTime)
    (h6 : env.intervalTimeR = .ok intervalTime)
    (h7 : env.latestBlockTimeR = .ok latestBlockTime)
    (hip : intervalsPassedOf startTime intervalTime latestBlockTime ≠ 0)
    (hgss : getSnapshotConsensusBlock env.beaconEnv
      (endTimeOf startTime intervalTime latestBlockTime) = .ok (sb, elN, t))
    (hres : elResolveOf env elN = .ok elb)
    (hidx : env.rewardIndexR = .ok currentIndex)
    (hnorun : env.isRunningAtCheck = false)
    (hfile : env.rewardsFileExists = true) :
    (env.hasSubmittedR = .ok true →
      runModel env = ⟨.ok (), elEventsOf elN t, false⟩ ∧
      ∀ e ∈ elEventsOf elN t,
        isUploadEvent e = false ∧ isSubmitEvent e = false ∧ e ≠ Event.genStarted) ∧
    (∀ (storedBytes : Nat) (pw : RewardsFileM) (cid : Nat),
      env.hasSubmittedR = .ok false →
      env.readFileR = .ok storedBytes →
      env.parseStoredR = .ok pw →
      env.web3TokenSet = true →
      env.putResumeR = .ok cid →
      env.submitEnv.rootDecodeOk = true →
      env.submitEnv.transactorOk = true →
      env.submitEnv.gasEstimateOk = true →
      env.submitEnv.gasCheckPass = true →
      env.submitEnv.submitOk = true →
      env.submitEnv.waitOk = true →
      runModel env = ⟨.ok (), elEventsOf elN t ++
        [.uploadedRewardsTree storedBytes,
         .submittedTx (mkSubmission currentIndex sb elb pw cid
           (intervalsPassedOf startTime intervalTime latestBlockTime))], false⟩ ∧
      (mkSubmission currentIndex sb elb pw cid
        (intervalsPassedOf startTime intervalTime latestBlockTime)).merkleRoot =
        pw.merkleRoot ∧
      Event.genStarted ∉ (runModel env).events) := by
  rw [runModel_reaches env true startTime intervalTime latestBlockTime
    h1 h2 h3 h4 (Or.inl rfl) h5 h6 h7 hip]
  unfold runFromSnapshot
  rw [hgss]
  dsimp only
  rw [hres]
  dsimp only
  unfold afterElResolution
  rw [hidx]
  dsimp only
  rw [hnorun, hfile]
  simp only [Bool.not_true, if_false, if_true, Bool.false_eq_true,
    ite_true, ite_false]
  constructor
  · intro hsub
    rw [hsub]
    dsimp only
    refine ⟨by simp, ?_⟩
    intro e he
    by_cases h0 : elN = 0
    · rw [elEventsOf, if_pos h0] at he
      simp only [List.mem_singleton] at he
      subst he
      exact ⟨rfl, rfl, by simp⟩
    · rw [elEventsOf, if_neg h0] at he
      simp only [List.mem_singleton] at he
      subst he
      exact ⟨rfl, rfl, by simp⟩
  · intro storedBytes pw cid hsub hread hparse htok hput hs1 hs2 hs3 hs4 hs5 hs6
    rw [hsub, hread, hparse]
    dsimp only
    have hupl : uploadFileToWeb3StorageM env.web3TokenSet env.putResumeR = .ok cid := by
      unfold uploadFileToWeb3StorageM
      rw [htok]
      simpa using hput
    rw [hupl]
    dsimp only
    have hsubmit : submitRewardsSnapshotM env.submitEnv currentIndex sb elb pw cid
        (intervalsPassedOf startTime intervalTime latestBlockTime) =
        (.ok (), [.submittedTx (mkSubmission currentIndex sb elb pw cid
          (intervalsPassedOf startTime intervalTime latestBlockTime))]) := by
      unfold submitRewardsSnapshotM
      rw [hs1, hs2, hs3, hs4, hs5, hs6]
      simp
    rw [hsubmit]
    dsimp only
    refine ⟨rfl, rfl, ?_⟩
    by_cases h0 : elN = 0 <;> simp [elEventsOf, h0]

/-- C6 witness: with the artifact present, a submitted node is a clean
success with only the header fetch as an event; an unsubmitted node
re-uploads the stored bytes and submits the stored root, without starting
generation. -/
theorem C6_resume_decision_witness :
    runModel envResumeDone = ⟨.ok (), [Event.headerByNumber 500], false⟩ ∧
    runModel envResumeRedo = ⟨.ok (), [Event.headerByNumber 500,
      .uploadedRewardsTree 777,
      .submittedTx (mkSubmission 5 63 500 rfBase 42 1)], false⟩ ∧
    Event.genStarted ∉ (runModel envResumeRedo).events := by
  have hd := C6_resume_decision envResumeDone 0 384 400 63 500 768 500 5
    rfl rfl rfl rfl rfl rfl rfl (by decide) (by decide) (by decide) rfl rfl rfl
  have hr := C6_resume_decision envResumeRedo 0 384 400 63 500 768 500 5
    rfl rfl rfl rfl rfl rfl rfl (by decide) (by decide) (by decide) rfl rfl rfl
  have ha := hd.1 rfl
  have hb := hr.2 777 rfBase 42 rfl rfl rfl rfl rfl rfl rfl rfl rfl rfl rfl
  exact ⟨ha.1.trans (by decide), hb.1.trans (by decide), hb.2.2⟩

/-- Helper: ordering property of the background task's tail: if the events
handed to it contain the performance-file write (and, for a trusted node,
the performance upload) but no rewards-tree write, then whenever the tail's
events contain the rewards-tree write, everything before that write already
contains the performance-file write (and upload). -/
theorem bodyTail_write_order (env : RunEnv) (tr : Bool) (ci sb elb : Nat)
    (ip : Int) (rf : RewardsFileM) (ev : List Event)
    (hall : ∀ x ∈ ev, (!(isWroteRewards x)) = true)
    (hperf : ev.any isWrotePerf = true)
    (hup : tr = true → ev.any isUploadedPerf = true)
    (h : ((bodyTail env tr ci sb elb ip rf ev).events.any isWroteRewards) = true) :
    (((bodyTail env tr ci sb elb ip rf ev).events.takeWhile
        fun e => !(isWroteRewards e)).any isWrotePerf) = true ∧
    (tr = true →
      (((bodyTail env tr ci sb elb ip rf ev).events.takeWhile
        fun e => !(isWroteRewards e)).any isUploadedPerf) = true) := by
  have hevfalse : ev.any isWroteRewards = false := by
    rw [List.any_eq_false]
    intro x hx
    have h2 := hall x hx
    simp only [Bool.not_eq_true'] at h2
    simp [h2]
  revert h
  unfold bodyTail handleErrorM
  cases hm : env.marshalWrapperR with
  | error u =>
    intro h
    dsimp only at h
    rw [hevfalse] at h
    simp at h
  | ok wb =>
    dsimp only
    by_cases hw : (!env.writeTreeOk) = true
    · rw [if_pos hw]
      intro h
      dsimp only at h
      rw [hevfalse] at h
      simp at h
    · rw [if_neg hw]
      by_cases ht : tr = true
      · rw [if_pos ht]
        cases hu : uploadFileToWeb3StorageM env.web3TokenSet env.putTreeR with
        | error u =>
          intro h
          dsimp only
          rw [takeWhile_append_of_all _ ev _ hall]
          simp only [List.takeWhile_cons, isWroteRewards, Bool.not_true,
            Bool.false_eq_true, if_false, List.append_nil]
          exact ⟨by simp [List.any_append, hperf],
            fun htr => by simp [List.any_append, hup htr]⟩
        | ok cid =>
          cases hs : (submitRewardsSnapshotM env.submitEnv ci sb elb rf cid ip).1 with
          | error u =>
            intro h
            dsimp only
            simp only [hs]
            rw [List.append_assoc, List.append_assoc,
              takeWhile_append_of_all _ ev _ hall]
            simp only [List.cons_append, List.nil_append, List.takeWhile_cons,
              isWroteRewards, Bool.not_true, Bool.false_eq_true, if_false,
              List.append_nil]
            exact ⟨by simp [List.any_append, hperf],
              fun htr => by simp [List.any_append, hup htr]⟩
          | ok u =>
            intro h
            dsimp only
            simp only [hs]
            rw [List.append_assoc, List.append_assoc,
              takeWhile_append_of_all _ ev _ hall]
            simp only [List.cons_append, List.nil_append, List.takeWhile_cons,
              isWroteRewards, Bool.not_true, Bool.false_eq_true, if_false,
              List.append_nil]
            exact ⟨by simp [List.any_append, hperf],
              fun htr => by simp [List.any_append, hup htr]⟩
      · rw [if_neg ht]
        intro h
        dsimp only
        rw [takeWhile_append_of_all _ ev _ hall]
        simp only [List.takeWhile_cons, isWroteRewards, Bool.not_true,
          Bool.false_eq_true, if_false, List.append_nil]
        exact ⟨by simp [List.any_append, hperf], fun htr => absurd htr ht⟩

/-- C10: in the background generation path, whenever the events include the
rewards-tree file write, the events before that write already include the
minipool performance file write, and — for a trusted node — the performance
file upload: the rewards tree is written to disk only after the performance
file has been written and (when trusted) uploaded. -/
theorem C10_write_order (env : RunEnv) (tr : Bool) (ci sb elb : Nat) (ip : Int)
    (h : ((goroutineBody env tr ci sb elb ip).events.any isWroteRewards) = true) :
    (((goroutineBody env tr ci sb elb ip).events.takeWhile
        fun e => !(isWroteRewards e)).any isWrotePerf) = true ∧
    (tr = true →
      (((goroutineBody env tr ci sb elb ip).events.takeWhile
        fun e => !(isWroteRewards e)).any isUploadedPerf) = true) := by
  have hstartAny : ∀ (q : Event → Bool), q Event.genStarted = false →
      q Event.warnMultipleIntervals = false →
      ((startEvents ip).any q) = false := by
    intro q hq1 hq2
    unfold startEvents
    split <;> simp [hq1, hq2]
  have hstartAll : ∀ x ∈ startEvents ip, (!(isWroteRewards x)) = true := by
    intro x hx
    unfold startEvents at hx
    split at hx <;> simp only [List.mem_cons, List.mem_singleton,
      List.not_mem_nil, or_false] at hx
    · rcases hx with hx | hx <;> subst hx <;> rfl
    · subst hx
      rfl
  revert h
  unfold goroutineBody handleErrorM
  dsimp only
  by_cases h1 : (env.archiveUrlSet && !env.dialArchiveOk) = true
  · rw [if_pos h1]
    intro h
    rw [hstartAny isWroteRewards rfl rfl] at h
    simp at h
  · rw [if_neg h1]
    by_cases h2 : (env.archiveUrlSet && !env.newRocketPoolOk) = true
    · rw [if_pos h2]
      intro h
      rw [hstartAny isWroteRewards rfl rfl] at h
      simp at h
    · rw [if_neg h2]
      cases hg : env.genResult with
      | error u =>
        intro h
        dsimp only at h
        rw [hstartAny isWroteRewards rfl rfl] at h
        simp at h
      | ok rf =>
        cases hp : env.marshalPerfR with
        | error u =>
          intro h
          dsimp only at h
          rw [hstartAny isWroteRewards rfl rfl] at h
          simp at h
        | ok pb =>
          dsimp only
          by_cases hwp : (!env.writePerfOk) = true
          · rw [if_pos hwp]
            intro h
            dsimp only at h
            rw [hstartAny isWroteRewards rfl rfl] at h
            simp at h
          · rw [if_neg hwp]
            by_cases ht : tr = true
            · rw [if_pos ht]
              cases hu : uploadFileToWeb3StorageM env.web3TokenSet env.putPerfR with
              | error u =>
                intro h
                dsimp only at h
                rw [List.any_append, hstartAny isWroteRewards rfl rfl] at h
                simp [isWroteRewards] at h
              | ok cid =>
                intro h
                refine bodyTail_write_order env tr ci sb elb ip rf _ ?_ ?_ ?_ h
                · intro x hx
                  rcases List.mem_append.mp hx with hx2 | hx2
                  · rcases List.mem_append.mp hx2 with hx3 | hx3
                    · exact hstartAll x hx3
                    · simp only [List.mem_singleton] at hx3
                      subst hx3
                      rfl
                  · simp only [List.mem_singleton] at hx2
                    subst hx2
                    rfl
                · simp [List.any_append, isWrotePerf]
                · intro htr
                  simp [List.any_append, isUploadedPerf]
            · rw [if_neg ht]
              intro h
              refine bodyTail_write_order env tr ci sb elb ip rf _ ?_ ?_ ?_ h
              · intro x hx
                rcases List.mem_append.mp hx with hx2 | hx2
                · exact hstartAll x hx2
                · simp only [List.mem_singleton] at hx2
                  subst hx2
                  rfl
              · simp [List.any_append, isWrotePerf]
              · intro htr
                exact absurd htr ht

/-- C10 witness: a full successful trusted run writes the performance file
and uploads it before writing the rewards tree file. -/
theorem C10_write_order_witness :
    ((goroutineBody envBase true 5 63 500 1).events.any isWroteRewards) = true ∧
    (((goroutineBody envBase true 5 63 500 1).events.takeWhile
        fun e => !(isWroteRewards e)).any isWrotePerf) = true ∧
    (((goroutineBody envBase true 5 63 500 1).events.takeWhile
        fun e => !(isWroteRewards e)).any isUploadedPerf) = true := by
  have h := C10_write_order envBase true 5 63 500 1 (by decide)
  exact ⟨by decide, h.1, h.2 rfl⟩

end Watchtower
